import Mathlib

/-!
Shallow embedding of the BlackTrace OTC settlement protocol core, translated
from the Rust sources:


* `src/src/crypto/commitment.rs` — liquidity commitment helper,
* `src/src/types.rs` — `OrderID` generation,
* `src/src/negotiation/{types,session,engine}.rs` — negotiation state machine,
* `src/src/cli/app.rs` — application facade (`request_order_details` path),
* `src/connectors/solana/htlc-contract/src/lib.rs` — on-chain HTLC escrow,
* `src/blacktrace-go/settlement-service/src/main.rs` — swap coordinator.

Machine integers (`u64`) are modelled as `Nat` with explicit `% 2 ^ 64`
where the Rust arithmetic can wrap.  External cryptographic digests
(Blake2b-512, SHA-256, RIPEMD-160 — all from third-party crates, not from
this repository) are modelled as explicit function parameters: every
property proved below holds for an arbitrary digest function, hence in
particular for the real one.
-/

namespace BlackTrace

/-- Association-list lookup, the model of `HashMap::get` / `DashMap::get`. -/
def findVal {κ α : Type} [DecidableEq κ] (k : κ) : List (κ × α) → Option α
  | [] => none
  | (k', v) :: rest => if k' = k then some v else findVal k rest

/-- Association-list insert/overwrite, the model of `HashMap::insert` /
`DashMap::insert` and of in-place mutation through `get_mut`. -/
def putVal {κ α : Type} [DecidableEq κ] (k : κ) (v : α) : List (κ × α) → List (κ × α)
  | [] => [(k, v)]
  | (k', v') :: rest => if k' = k then (k, v) :: rest else (k', v') :: putVal k v rest

/-- Big-endian byte decomposition of a `u64`, the model of
`u64::to_be_bytes`. -/
def u64BeBytes (n : Nat) : List Nat :=
  [n / 2 ^ 56 % 256, n / 2 ^ 48 % 256, n / 2 ^ 40 % 256, n / 2 ^ 32 % 256,
   n / 2 ^ 24 % 256, n / 2  ^ 16 % 256, n / 2 ^ 8 % 256, n % 256]

/-- Lowercase hex encoding of a byte list, the model of `hex::encode`. -/
def hexEncode (bytes : List Nat) : String :=
  String.mk (bytes.foldr
    (fun b acc => Nat.digitChar (b / 16 % 16) :: Nat.digitChar (b % 16) :: acc) [])

/-- Bytes of a Rust `String` (`str::as_bytes`), abstracted to the character
codes of the string. -/
def strBytes (s : String) : List Nat :=
  s.toList.map Char.toNat

/-- The error taxonomy of `src/src/error.rs` (`BlackTraceError`), restricted
to the variants reachable from the embedded operations. -/
inductive BlackTraceError : Type
  | PeerNotFound (msg : String)
  | InsufficientBalance (required : Nat) (available : Nat)
  | OrderNotFound (msg : String)
  | SessionNotFound (msg : String)
  | InvalidStateTransition (msg : String)
  | InvalidProposal (msg : String)
deriving DecidableEq, Repr

/-! ## Commitment helper (`src/src/crypto/commitment.rs`) -/

/-- `LiquidityCommitment` from `src/src/crypto/types.rs`; hashes are 32-byte
values, modelled as byte lists. -/
structure LiquidityCommitment where
  commitment_hash : List Nat
  nullifier : List Nat
  min_amount : Nat
  timestamp : Nat
deriving DecidableEq, Repr

/-- `compute_commitment_hash`: Blake2b-512 of `amount.to_be_bytes() ‖ salt`,
truncated to 32 bytes.  `H` stands for the truncated Blake2b digest. -/
def compute_commitment_hash (H : List Nat → List Nat) (amount : Nat)
    (salt : List Nat) : List Nat :=
  H (u64BeBytes amount ++ salt)

/-- `generate_nullifier`: Blake2b-512 of `viewing_key ‖ order_id.0.as_bytes()`,
truncated to 32 bytes. -/
def generate_nullifier (H : List Nat → List Nat) (viewing_key : List Nat)
    (order_id : String) : List Nat :=
  H (viewing_key ++ strBytes order_id)

/-- `generate_commitment` from `src/src/crypto/commitment.rs`.  The wall-clock
timestamp read inside the function is passed in as `now`. -/
def generate_commitment (H : List Nat → List Nat) (amount : Nat)
    (salt : List Nat) (min_amount : Nat) (viewing_key : List Nat)
    (order_id : String) (now : Nat) :
    Except BlackTraceError LiquidityCommitment :=
  if amount < min_amount then
    .error (.InsufficientBalance min_amount amount)
  else
    .ok { commitment_hash := compute_commitment_hash H amount salt
          nullifier := generate_nullifier H viewing_key order_id
          min_amount := min_amount
          timestamp := now }

/-! ## HTLC escrow contract (`src/connectors/solana/htlc-contract/src/lib.rs`)

The contract is a state machine keyed by the 20-byte `hash_lock`: the Anchor
account constraints derive the escrow PDA from seeds `[b"htlc", hash_lock]`,
so the account touched by `lock`/`claim`/`refund` is the one stored under the
`hash_lock` instruction argument.  `hash160` (RIPEMD160 ∘ SHA256, from the
`sha2`/`ripemd` crates) is passed in as a function parameter. -/

/-- `HTLCError` from the contract, in source order. -/
inductive HTLCError : Type
  | InvalidTimeout
  | InvalidAmount
  | InvalidSecret
  | AlreadyClaimed
  | AlreadyRefunded
  | TimeoutNotReached
  | NotReceiver
  | NotSender
  | HashMismatch
deriving DecidableEq, Repr

/-- Failures of an HTLC instruction: either an `HTLCError` raised by a
`require!` in the handler, or a failure of the surrounding Anchor/Solana
runtime (PDA already initialized, PDA not initialized, system-program
transfer with insufficient lamports). -/
inductive ChainError : Type
  | accountInUse
  | accountNotInit
  | insufficientLamports
  | htlc (e : HTLCError)
deriving DecidableEq, Repr

/-- `HTLCAccount`: the on-chain escrow state, plus the lamports held by the
PDA itself (the `amount` moved in by `lock`). -/
structure HTLCAccount where
  hash_lock : List Nat
  sender : String
  receiver : String
  amount : Nat
  timeout : Int
  claimed : Bool
  refunded : Bool
  lamports : Nat
deriving DecidableEq, Repr

/-- One event emitted by the contract (`emit!`). -/
inductive ChainEvent : Type
  | Locked (hash_lock : List Nat) (sender receiver : String) (amount : Nat) (timeout : Int)
  | Claimed (hash_lock : List Nat) (receiver : String) (secret : List Nat) (amount : Nat)
  | Refunded (hash_lock : List Nat) (sender : String) (amount : Nat)
deriving DecidableEq, Repr

/-- On-chain state: escrow accounts keyed by `hash_lock`, and the lamport
balances of the wallet accounts. -/
structure ChainState where
  accounts : List (List Nat × HTLCAccount)
  balances : List (String × Nat)
deriving DecidableEq, Repr

/-- Balance of a wallet account (0 when the account never appeared). -/
def getBal (balances : List (String × Nat)) (who : String) : Nat :=
  (findVal who balances).getD 0

/-- `lock` instruction.  Anchor `init` fails when an account already exists
under the PDA; the handler then requires a future timeout and a positive
amount, and the system-program transfer debits the sender.  A failed
instruction leaves no state change (the transaction reverts). -/
def lock (s : ChainState) (hash_lock : List Nat) (sender receiver : String)
    (amount : Nat) (timeout now : Int) :
    Except ChainError (ChainState × ChainEvent) :=
  match findVal hash_lock s.accounts with
  | some _ => .error .accountInUse
  | none =>
    if ¬ timeout > now then .error (.htlc .InvalidTimeout)
    else if ¬ amount > 0 then .error (.htlc .InvalidAmount)
    else if getBal s.balances sender < amount then .error .insufficientLamports
    else
      let htlc : HTLCAccount :=
        { hash_lock := hash_lock, sender := sender, receiver := receiver
          amount := amount, timeout := timeout
          claimed := false, refunded := false, lamports := amount }
      .ok ({ accounts := putVal hash_lock htlc s.accounts
             balances := putVal sender (getBal s.balances sender - amount) s.balances },
           .Locked hash_lock sender receiver amount timeout)

/-- `claim` instruction, with the `require!` checks in source order. -/
def claim (hash160 : List Nat → List Nat) (s : ChainState) (hash_lock : List Nat)
    (secret : List Nat) (caller : String) :
    Except ChainError (ChainState × ChainEvent) :=
  match findVal hash_lock s.accounts with
  | none => .error .accountNotInit
  | some htlc =>
    if htlc.claimed then .error (.htlc .AlreadyClaimed)
    else if htlc.refunded then .error (.htlc .AlreadyRefunded)
    else if ¬ htlc.hash_lock = hash_lock then .error (.htlc .HashMismatch)
    else if ¬ hash160 secret = hash_lock then .error (.htlc .InvalidSecret)
    else if ¬ caller = htlc.receiver then .error (.htlc .NotReceiver)
    else
      .ok ({ accounts := putVal hash_lock
               { htlc with claimed := true, lamports := htlc.lamports - htlc.amount }
               s.accounts
             balances := putVal caller (getBal s.balances caller + htlc.amount) s.balances },
           .Claimed hash_lock caller secret htlc.amount)

/-- `refund` instruction, with the `require!` checks in source order. -/
def refund (s : ChainState) (hash_lock : List Nat) (caller : String) (now : Int) :
    Except ChainError (ChainState × ChainEvent) :=
  match findVal hash_lock s.accounts with
  | none => .error .accountNotInit
  | some htlc =>
    if htlc.claimed then .error (.htlc .AlreadyClaimed)
    else if htlc.refunded then .error (.htlc .AlreadyRefunded)
    else if ¬ htlc.hash_lock = hash_lock then .error (.htlc .HashMismatch)
    else if ¬ now ≥ htlc.timeout then .error (.htlc .TimeoutNotReached)
    else if ¬ caller = htlc.sender then .error (.htlc .NotSender)
    else
      .ok ({ accounts := putVal hash_lock
               { htlc with refunded := true, lamports := htlc.lamports - htlc.amount }
               s.accounts
             balances := putVal caller (getBal s.balances caller + htlc.amount) s.balances },
           .Refunded hash_lock caller htlc.amount)

/-- One submitted HTLC instruction. -/
inductive HTLCOp : Type
  | lock (hash_lock : List Nat) (sender receiver : String) (amount : Nat) (timeout now : Int)
  | claim (hash_lock : List Nat) (secret : List Nat) (caller : String)
  | refund (hash_lock : List Nat) (caller : String) (now : Int)

/-- Apply one instruction; a failed instruction reverts (state unchanged). -/
def applyOp (hash160 : List Nat → List Nat) (s : ChainState) : HTLCOp → ChainState
  | .lock hl sender receiver amount timeout now =>
    match lock s hl sender receiver amount timeout now with
    | .ok (s', _) => s'
    | .error _ => s
  | .claim hl secret caller =>
    match claim hash160 s hl secret caller with
    | .ok (s', _) => s'
    | .error _ => s
  | .refund hl caller now =>
    match refund s hl caller now with
    | .ok (s', _) => s'
    | .error _ => s

/-- Run a sequence of instructions. -/
def runOps (hash160 : List Nat → List Nat) (s : ChainState) (ops : List HTLCOp) :
    ChainState :=
  ops.foldl (applyOp hash160) s

/-- The chain before any BlackTrace escrow exists: no HTLC accounts. -/
def initChain (balances : List (String × Nat)) : ChainState :=
  { accounts := [], balances := balances }

/-- Per-account soundness: every escrow stored under key `k` carries `k` as
its own `hash_lock` and never both terminal flags. -/
def AccountOk (k : List Nat) (a : HTLCAccount) : Prop :=
  a.hash_lock = k ∧ ¬(a.claimed = true ∧ a.refunded = true)

/-- Invariant on the whole chain state. -/
def ChainInv (s : ChainState) : Prop :=
  ∀ k a, findVal k s.accounts = some a → AccountOk k a

/-- An escrow with a terminal flag. -/
def FlagSet (k : List Nat) (s : ChainState) : Prop :=
  ∃ a, findVal k s.accounts = some a ∧ (a.claimed = true ∨ a.refunded = true)

/-- Concrete escrow for evaluating the claim characterization. -/
def escrowW : HTLCAccount :=
  { hash_lock := [3], sender := "alice", receiver := "bob", amount := 7
    timeout := 100, claimed := false, refunded := false, lamports := 7 }

/-- Concrete chain state holding `escrowW` under key `[3]`. -/
def chainW : ChainState :=
  { accounts := [([3], escrowW)], balances := [("bob", 5)] }

/-- Stand-in digest used only to evaluate theorems on concrete inputs. -/
def h160W : List Nat → List Nat := fun _ => [3]

/-- Stand-in digest mapping everything to key `[4]`. -/
def h160W4 : List Nat → List Nat := fun _ => [4]

/-- A lock followed by a successful claim of the same escrow. -/
def opsW : List HTLCOp :=
  [.lock [4] "alice" "bob" 5 100 0, .claim [4] [9] "bob"]

/-- The escrow produced by `opsW`: claimed, not refunded. -/
def escrowClaimedW : HTLCAccount :=
  { hash_lock := [4], sender := "alice", receiver := "bob", amount := 5
    timeout := 100, claimed := true, refunded := false, lamports := 0 }

/-- Stand-in 32-byte digest for evaluating the commitment helper. -/
def hashLenW : List Nat → List Nat := fun l => [l.length]

/-! ## Identifiers (`src/src/types.rs`) -/

/-- `OrderID`: a newtype over `String`. -/
structure OrderID where
  val : String
deriving DecidableEq, Repr

/-- `OrderID::generate`: formats the wall-clock Unix time in milliseconds —
and nothing else — into the identifier.  The clock reading is the only
input. -/
def OrderID.generate (nowMillis : Nat) : OrderID :=
  ⟨"order_" ++ Nat.repr nowMillis⟩

/-! ## Negotiation state machine
(`src/src/negotiation/{types,session,engine}.rs`, `src/src/cli/app.rs`) -/

/-- `Role` from `src/src/negotiation/types.rs`. -/
inductive Role : Type
  | Maker
  | Taker
deriving DecidableEq, Repr

/-- `OrderType` from `src/src/types.rs`. -/
inductive OrderType : Type
  | Buy
  | Sell
deriving DecidableEq, Repr

/-- `StablecoinType` from `src/src/types.rs`. -/
inductive StablecoinType : Type
  | USDC
  | USDT
  | DAI
deriving DecidableEq, Repr

/-- `OrderDetails` from `src/src/negotiation/types.rs`. -/
structure OrderDetails where
  order_id : OrderID
  order_type : OrderType
  amount : Nat
  min_price : Nat
  max_price : Nat
  stablecoin : StablecoinType
deriving DecidableEq, Repr

/-- `Proposal` from `src/src/negotiation/types.rs`; `SystemTime` is a `Nat`. -/
structure Proposal where
  price : Nat
  amount : Nat
  proposer : Role
  timestamp : Nat
deriving DecidableEq, Repr

/-- `SettlementTerms` from `src/src/negotiation/types.rs`; the 32-byte
`secret_hash` is a byte list. -/
structure SettlementTerms where
  order_id : OrderID
  zec_amount : Nat
  stablecoin_amount : Nat
  stablecoin_type : StablecoinType
  maker_address : String
  taker_address : String
  secret_hash : List Nat
  timelock_blocks : Nat
deriving DecidableEq, Repr

/-- `SignedSettlement` from `src/src/negotiation/types.rs`. -/
structure SignedSettlement where
  terms : SettlementTerms
  maker_signature : List Nat
  taker_signature : List Nat
  finalized_at : Nat
deriving DecidableEq, Repr

/-- `NegotiationState` from `src/src/negotiation/types.rs`. -/
inductive NegotiationState : Type
  | DetailsRequested (timestamp : Nat)
  | DetailsRevealed (details : OrderDetails) (timestamp : Nat)
  | PriceDiscovery (proposals : List Proposal)
  | TermsAgreed (settlement : SignedSettlement)
  | Cancelled (reason : String)
deriving DecidableEq, Repr

/-- `NegotiationState::is_terminal`. -/
def NegotiationState.is_terminal : NegotiationState → Bool
  | .TermsAgreed _ => true
  | .Cancelled _ => true
  | _ => false

/-- `NegotiationSession` from `src/src/negotiation/session.rs`. -/
structure NegotiationSession where
  order_id : OrderID
  local_role : Role
  counterparty_peer_id : String
  state : NegotiationState
  proposals : List Proposal
  created_at : Nat
deriving DecidableEq, Repr

/-- `NegotiationSession::new_taker`. -/
def NegotiationSession.new_taker (order_id : OrderID) (maker_peer_id : String)
    (now : Nat) : NegotiationSession :=
  { order_id := order_id, local_role := .Taker
    counterparty_peer_id := maker_peer_id
    state := .DetailsRequested now, proposals := [], created_at := now }

/-- `NegotiationSession::new_maker`. -/
def NegotiationSession.new_maker (order_id : OrderID) (taker_peer_id : String)
    (now : Nat) : NegotiationSession :=
  { order_id := order_id, local_role := .Maker
    counterparty_peer_id := taker_peer_id
    state := .DetailsRequested now, proposals := [], created_at := now }

/-- `NegotiationSession::set_state`: rejected from a terminal state. -/
def NegotiationSession.set_state (s : NegotiationSession)
    (state : NegotiationState) : Except BlackTraceError NegotiationSession :=
  if s.state.is_terminal then
    .error (.InvalidStateTransition "Cannot transition from terminal state")
  else
    .ok { s with state := state }

/-- `NegotiationSession::add_proposal`: rejected from a terminal state;
otherwise appends and moves to `PriceDiscovery`. -/
def NegotiationSession.add_proposal (s : NegotiationSession) (p : Proposal) :
    Except BlackTraceError NegotiationSession :=
  if s.state.is_terminal then
    .error (.InvalidStateTransition "Cannot add proposal to terminal state")
  else
    .ok { s with proposals := s.proposals ++ [p]
                 state := .PriceDiscovery (s.proposals ++ [p]) }

/-- `NegotiationSession::finalize`: rejected from a terminal state or when
either signature is empty; there is no check on the proposal list. -/
def NegotiationSession.finalize (s : NegotiationSession)
    (settlement : SignedSettlement) : Except BlackTraceError NegotiationSession :=
  if s.state.is_terminal then
    .error (.InvalidStateTransition "Negotiation already finalized")
  else if settlement.maker_signature.isEmpty || settlement.taker_signature.isEmpty then
    .error (.InvalidProposal "Missing signatures")
  else
    .ok { s with state := .TermsAgreed settlement }

/-- `NegotiationSession::cancel`: an unconditional state overwrite — the
source performs no terminal-state check and cannot fail. -/
def NegotiationSession.cancel (s : NegotiationSession) (reason : String) :
    NegotiationSession :=
  { s with state := .Cancelled reason }

/-- `NegotiationSession::latest_price`. -/
def NegotiationSession.latest_price (s : NegotiationSession) : Option Nat :=
  s.proposals.getLast?.map Proposal.price

/-- `NegotiationEngine`: the map of active sessions keyed by order id. -/
structure NegotiationEngine where
  active_sessions : List (OrderID × NegotiationSession)
deriving DecidableEq, Repr

/-- `NegotiationEngine::request_order_details`: unconditionally creates and
stores a taker session, then serializes the order id as the outbound
message (serialization of these values cannot fail, so the `Result` in the
source is always `Ok`). -/
def NegotiationEngine.request_order_details (eng : NegotiationEngine)
    (order_id : OrderID) (maker_peer_id : String) (now : Nat) :
    NegotiationEngine × List Nat :=
  ({ active_sessions :=
      putVal order_id (NegotiationSession.new_taker order_id maker_peer_id now)
        eng.active_sessions },
   strBytes order_id.val)

/-- `NegotiationEngine::cancel_negotiation`: looks the session up and calls
`NegotiationSession::cancel` on it. -/
def cancel_negotiation (eng : NegotiationEngine) (order_id : OrderID)
    (reason : String) : Except BlackTraceError NegotiationEngine :=
  match findVal order_id eng.active_sessions with
  | none => .error (.SessionNotFound order_id.val)
  | some s =>
    .ok { active_sessions :=
            putVal order_id (s.cancel reason) eng.active_sessions }

/-- `NegotiationEngine::accept_and_finalize`: signs the terms with the local
key and installs the same signature on both sides, then finalizes the
session.  `sign_terms` (Blake2b of the serialized terms in the source) is a
parameter. -/
def accept_and_finalize (sign_terms : SettlementTerms → List Nat)
    (eng : NegotiationEngine) (order_id : OrderID) (terms : SettlementTerms)
    (now : Nat) :
    Except BlackTraceError (NegotiationEngine × SignedSettlement) :=
  let signature := sign_terms terms
  let signed : SignedSettlement :=
    { terms := terms, maker_signature := signature
      taker_signature := signature, finalized_at := now }
  match findVal order_id eng.active_sessions with
  | none => .error (.SessionNotFound order_id.val)
  | some s =>
    match s.finalize signed with
    | .error e => .error e
    | .ok s' =>
      .ok ({ active_sessions := putVal order_id s' eng.active_sessions }, signed)

/-- `OrderAnnouncement` as constructed in `src/src/cli/app.rs`. -/
structure OrderAnnouncement where
  order_id : OrderID
  order_type : OrderType
  stablecoin : StablecoinType
  encrypted_details : List Nat
  proof_commitment : List Nat
  timestamp : Nat
  expiry : Nat
deriving DecidableEq, Repr

/-- `BlackTraceApp::request_order_details` from `src/src/cli/app.rs`: looks
the order up in the local order store (failing with `OrderNotFound` before
any session is created), requires a connected peer, and only then asks the
engine to create the taker session and send the request.  The returned
engine is the session map after the call. -/
def app_request_order_details (orders : List (OrderID × OrderAnnouncement))
    (peers : List String) (eng : NegotiationEngine) (order_id : OrderID)
    (now : Nat) : NegotiationEngine × Except BlackTraceError Unit :=
  match findVal order_id orders with
  | none => (eng, .error (.OrderNotFound order_id.val))
  | some _ =>
    match peers with
    | [] => (eng, .error (.PeerNotFound "No peers connected"))
    | maker_peer :: _ =>
      ((eng.request_order_details order_id maker_peer now).1, .ok ())

/-- Concrete order id shared by the negotiation evaluations. -/
def orderW : OrderID := ⟨"order_1"⟩

/-- Concrete settlement terms. -/
def termsW : SettlementTerms :=
  { order_id := orderW, zec_amount := 10000, stablecoin_amount := 4500000
    stablecoin_type := .USDC, maker_address := "zs1m", taker_address := "zs1t"
    secret_hash := [1], timelock_blocks := 144 }

/-- Concrete signed settlement with both signatures non-empty. -/
def signedW : SignedSettlement :=
  { terms := termsW, maker_signature := [1, 2, 3]
    taker_signature := [4, 5, 6], finalized_at := 5 }

/-- A session already in the terminal `TermsAgreed` state. -/
def finalizedSessionW : NegotiationSession :=
  { order_id := orderW, local_role := .Maker
    counterparty_peer_id := "taker_123"
    state := .TermsAgreed signedW, proposals := [], created_at := 0 }

/-- An engine holding only the finalized session. -/
def engineW : NegotiationEngine :=
  { active_sessions := [(orderW, finalizedSessionW)] }

/-- A session that never saw a proposal. -/
def freshSessionW : NegotiationSession :=
  { order_id := orderW, local_role := .Maker
    counterparty_peer_id := "taker_123"
    state := .DetailsRequested 0, proposals := [], created_at := 0 }

/-- An engine with no sessions. -/
def emptyEngineW : NegotiationEngine := { active_sessions := [] }

/-! ## Settlement coordinator
(`src/blacktrace-go/settlement-service/src/main.rs`) -/

/-- The `u64` wrap-around modulus. -/
def u64Mod : Nat := 2 ^ 64

/-- `SettlementRequest` (inbound `settlement.request.*` payload). -/
structure SettlementRequest where
  proposal_id : String
  order_id : String
  maker_id : String
  taker_id : String
  amount : Nat
  price : Nat
  stablecoin : String
  settlement_chain : String
  timestamp : Nat
deriving DecidableEq, Repr

/-- `SettlementStatusUpdate` (inbound `settlement.status.*` payload). -/
structure SettlementStatusUpdate where
  proposal_id : String
  order_id : String
  settlement_status : String
  action : String
  amount : Nat
  amount_usdc : Nat
  timestamp : Nat
deriving DecidableEq, Repr

/-- `SettlementState` tracked by the coordinator, keyed by proposal id;
`DateTime<Utc>` fields are `Nat` clock readings. -/
structure SettlementState where
  proposal_id : String
  order_id : String
  maker_id : String
  taker_id : String
  amount_zec : Nat
  amount_usdc : Nat
  secret : List Nat
  hash_hex : String
  status : String
  zec_locked : Bool
  usdc_locked : Bool
  created_at : Nat
  updated_at : Nat
deriving DecidableEq, Repr

/-- One NATS message published by the coordinator. -/
inductive Publication : Type
  | htlcParams (subject : String) (proposal_id : String) (htlc_hash : String)
  | secretReveal (subject : String) (proposal_id : String) (secret_hex : String)
      (hash_hex : String) (alice_can_claim : Bool) (bob_can_claim_after_alice : Bool)
deriving DecidableEq, Repr

/-- The coordinator's `DashMap<String, SettlementState>`. -/
abbrev CoordSettlements := List (String × SettlementState)

/-- `publish_htlc_params`: the `htlc_params` message on
`settlement.htlc.<proposal_id>`. -/
def publish_htlc_params (proposal_id hash_hex : String) : Publication :=
  .htlcParams ("settlement.htlc." ++ proposal_id) proposal_id hash_hex

/-- `reveal_secret_for_claiming`: the `secret_reveal` message on
`settlement.secret.<proposal_id>`, built from the settlement entry. -/
def reveal_secret_for_claiming (st : SettlementState) : Publication :=
  .secretReveal ("settlement.secret." ++ st.proposal_id) st.proposal_id
    (hexEncode st.secret) st.hash_hex true true

/-- `handle_settlement_request`: draws a secret (passed in, with its HASH160
given by the `hash160` parameter), stores a fresh settlement whose
`amount_usdc` is the unchecked `u64` product `amount * price` (wrapping
modulo `2 ^ 64`), and publishes the HTLC parameters. -/
def handle_settlement_request (hash160 : List Nat → List Nat)
    (svc : CoordSettlements) (req : SettlementRequest) (secret : List Nat)
    (now : Nat) : CoordSettlements × List Publication :=
  let hash_hex := hexEncode (hash160 secret)
  let st : SettlementState :=
    { proposal_id := req.proposal_id, order_id := req.order_id
      maker_id := req.maker_id, taker_id := req.taker_id
      amount_zec := req.amount
      amount_usdc := req.amount * req.price % u64Mod
      secret := secret, hash_hex := hash_hex, status := "ready"
      zec_locked := false, usdc_locked := false
      created_at := now, updated_at := now }
  (putVal req.proposal_id st svc, [publish_htlc_params req.proposal_id hash_hex])

/-- `handle_status_update`: on `alice_lock_zec` it sets `zec_locked` and the
status, publishing nothing; on `bob_lock_usdc` it sets `usdc_locked` and the
status and then — without consulting `zec_locked` — publishes the secret
reveal; unknown proposals and unknown actions change nothing. -/
def handle_status_update (svc : CoordSettlements)
    (upd : SettlementStatusUpdate) (now : Nat) :
    CoordSettlements × List Publication :=
  match findVal upd.proposal_id svc with
  | none => (svc, [])
  | some st =>
    if upd.action = "alice_lock_zec" then
      (putVal upd.proposal_id
        { st with zec_locked := true, status := "alice_locked", updated_at := now }
        svc, [])
    else if upd.action = "bob_lock_usdc" then
      let st' : SettlementState :=
        { st with usdc_locked := true, status := "both_locked", updated_at := now }
      (putVal upd.proposal_id st' svc, [reveal_secret_for_claiming st'])
    else
      (svc, [])

/-- One message delivered to the coordinator's event loop.  A `request`
event carries the random 32-byte secret the handler draws. -/
inductive CoordEvent : Type
  | request (req : SettlementRequest) (secret : List Nat) (now : Nat)
  | status (upd : SettlementStatusUpdate) (now : Nat)

/-- Dispatch of one event, as in the service's `tokio::select!` loop. -/
def coordStep (hash160 : List Nat → List Nat) (svc : CoordSettlements) :
    CoordEvent → CoordSettlements × List Publication
  | .request req secret now => handle_settlement_request hash160 svc req secret now
  | .status upd now => handle_status_update svc upd now

/-- Run the coordinator over a list of events, collecting publications. -/
def coordRun (hash160 : List Nat → List Nat) (svc : CoordSettlements) :
    List CoordEvent → CoordSettlements × List Publication
  | [] => (svc, [])
  | e :: rest =>
    let r := coordStep hash160 svc e
    let r' := coordRun hash160 r.1 rest
    (r'.1, r.2 ++ r'.2)

/-- Number of `secret_reveal` publications in a list. -/
def countReveals (pubs : List Publication) : Nat :=
  (pubs.filter fun p =>
    match p with
    | .secretReveal .. => true
    | _ => false).length

/-- Stand-in digest producing a 20-byte hash. -/
def h160Z : List Nat → List Nat := fun _ => List.replicate 20 0

/-- A concrete 32-byte secret. -/
def secretZ : List Nat := List.replicate 32 1

/-- A concrete settlement request for proposal `p1`. -/
def reqZ : SettlementRequest :=
  { proposal_id := "p1", order_id := "o1", maker_id := "alice", taker_id := "bob"
    amount := 10, price := 465, stablecoin := "USDC"
    settlement_chain := "starknet", timestamp := 0 }

/-- A `bob_lock_usdc` status update for proposal `p1`. -/
def updBobZ : SettlementStatusUpdate :=
  { proposal_id := "p1", order_id := "o1", settlement_status := "usdc_locked"
    action := "bob_lock_usdc", amount := 0, amount_usdc := 4650, timestamp := 1 }

/-- An `alice_lock_zec` status update for proposal `p1`. -/
def updAliceZ : SettlementStatusUpdate :=
  { proposal_id := "p1", order_id := "o1", settlement_status := "zec_locked"
    action := "alice_lock_zec", amount := 10, amount_usdc := 0, timestamp := 2 }

/-- A settlement entry that has already reached `both_locked`. -/
def stBothZ : SettlementState :=
  { proposal_id := "p1", order_id := "o1", maker_id := "alice"
    taker_id := "bob", amount_zec := 10, amount_usdc := 4650
    secret := secretZ, hash_hex := hexEncode (h160Z secretZ)
    status := "both_locked", zec_locked := true, usdc_locked := true
    created_at := 0, updated_at := 1 }

/-- The coordinator map holding `stBothZ`. -/
def svcZ : CoordSettlements := [("p1", stBothZ)]

/-- A request whose `u64` product overflows exactly to `2 ^ 64`. -/
def reqBigZ : SettlementRequest :=
  { proposal_id := "pB", order_id := "oB", maker_id := "alice"
    taker_id := "bob", amount := 2 ^ 32, price := 2 ^ 32
    stablecoin := "USDC", settlement_chain := "starknet", timestamp := 0 }

/-! ## Decimal representation facts, for `OrderID::generate` -/

/-- Numeric value of a decimal digit character. -/
def decDigitVal (c : Char) : Nat := c.toNat - 48

/-- Value of a most-significant-first decimal digit string. -/
def evalDecDigits (cs : List Char) : Nat :=
  cs.foldl (fun a c => 10 * a + decDigitVal c) 0

theorem findVal_putVal_self {κ α : Type} [DecidableEq κ] (k : κ) (v : α)
    (l : List (κ × α)) : findVal k (putVal k v l) = some v := by
  induction l with
  | nil => simp [findVal, putVal]
  | cons hd tl ih =>
    by_cases h : hd.1 = k
    · simp [findVal, putVal, h]
    · simp [findVal, putVal, h, ih]

theorem findVal_putVal_ne {κ α : Type} [DecidableEq κ] {k k' : κ} (v : α)
    (l : List (κ × α)) (h : k' ≠ k) : findVal k' (putVal k v l) = findVal k' l := by
  induction l with
  | nil => simp [findVal, putVal, Ne.symm h]
  | cons hd tl ih =>
    obtain ⟨a, b⟩ := hd
    by_cases hh : a = k
    · subst hh
      simp [findVal, putVal, Ne.symm h]
    · by_cases hk : a = k'
      · subst hk
        simp [findVal, putVal, hh]
      · simp [findVal, putVal, hh, hk, ih]

theorem findVal_putVal {κ α : Type} [DecidableEq κ] (k hl : κ) (v : α)
    (l : List (κ × α)) :
    findVal k (putVal hl v l) = if k = hl then some v else findVal k l := by
  by_cases h : k = hl
  · subst h
    simp [findVal_putVal_self]
  · simp [h, findVal_putVal_ne v l h]

theorem getBal_putVal_self (balances : List (String × Nat)) (who : String) (v : Nat) :
    getBal (putVal who v balances) who = v := by
  simp [getBal, findVal_putVal_self]

/-- Everything a successful `lock` implies, read off the source. -/
theorem lock_ok_chars {s s' : ChainState} {ev : ChainEvent} {hl : List Nat}
    {sender receiver : String} {amount : Nat} {timeout now : Int}
    (hres : lock s hl sender receiver amount timeout now = .ok (s', ev)) :
    findVal hl s.accounts = none ∧ timeout > now ∧ amount > 0 ∧
    s' = { accounts := putVal hl
             { hash_lock := hl, sender := sender, receiver := receiver
               amount := amount, timeout := timeout
               claimed := false, refunded := false, lamports := amount } s.accounts
           balances := putVal sender (getBal s.balances sender - amount) s.balances } ∧
    ev = .Locked hl sender receiver amount timeout := by
  unfold lock at hres
  split at hres
  next a hfind => exact absurd hres (by simp)
  next hfind =>
    split_ifs at hres with h1 h2 h3
    simp only [Except.ok.injEq, Prod.mk.injEq] at hres
    exact ⟨hfind, h1, h2, hres.1.symm, hres.2.symm⟩

/-- Everything a successful `claim` implies, read off the source. -/
theorem claim_ok_chars {hash160 : List Nat → List Nat} {s s' : ChainState}
    {ev : ChainEvent} {hl secret : List Nat} {caller : String}
    (hres : claim hash160 s hl secret caller = .ok (s', ev)) :
    ∃ a, findVal hl s.accounts = some a ∧ a.claimed = false ∧ a.refunded = false ∧
      a.hash_lock = hl ∧ hash160 secret = hl ∧ caller = a.receiver ∧
      s' = { accounts := putVal hl
               { a with claimed := true, lamports := a.lamports - a.amount } s.accounts
             balances := putVal caller (getBal s.balances caller + a.amount) s.balances } ∧
      ev = .Claimed hl caller secret a.amount := by
  unfold claim at hres
  split at hres
  next hfind => exact absurd hres (by simp)
  next a hfind =>
    split_ifs at hres with h1 h2 h3 h4 h5
    simp only [Except.ok.injEq, Prod.mk.injEq] at hres
    exact ⟨a, hfind, by simpa using h1, by simpa using h2, h3, h4, h5,
      hres.1.symm, hres.2.symm⟩

/-- Everything a successful `refund` implies, read off the source. -/
theorem refund_ok_chars {s s' : ChainState} {ev : ChainEvent} {hl : List Nat}
    {caller : String} {now : Int}
    (hres : refund s hl caller now = .ok (s', ev)) :
    ∃ a, findVal hl s.accounts = some a ∧ a.claimed = false ∧ a.refunded = false ∧
      a.hash_lock = hl ∧ now ≥ a.timeout ∧ caller = a.sender ∧
      s' = { accounts := putVal hl
               { a with refunded := true, lamports := a.lamports - a.amount } s.accounts
             balances := putVal caller (getBal s.balances caller + a.amount) s.balances } ∧
      ev = .Refunded hl caller a.amount := by
  unfold refund at hres
  split at hres
  next hfind => exact absurd hres (by simp)
  next a hfind =>
    split_ifs at hres with h1 h2 h3 h4 h5
    simp only [Except.ok.injEq, Prod.mk.injEq] at hres
    exact ⟨a, hfind, by simpa using h1, by simpa using h2, h3, h4, h5,
      hres.1.symm, hres.2.symm⟩

theorem chainInv_applyOp (hash160 : List Nat → List Nat) {s : ChainState}
    (hs : ChainInv s) (op : HTLCOp) : ChainInv (applyOp hash160 s op) := by
  cases op with
  | lock hl sender receiver amount timeout now =>
    cases hres : lock s hl sender receiver amount timeout now with
    | error e =>
      simp only [applyOp, hres]
      exact hs
    | ok p =>
      obtain ⟨s', ev⟩ := p
      obtain ⟨hfind, h1, h2, rfl, rfl⟩ := lock_ok_chars hres
      simp only [applyOp, hres]
      intro k a hka
      rw [findVal_putVal] at hka
      by_cases hk : k = hl
      · rw [if_pos hk] at hka
        cases hka
        exact ⟨hk.symm, by simp⟩
      · rw [if_neg hk] at hka
        exact hs k a hka
  | claim hl secret caller =>
    cases hres : claim hash160 s hl secret caller with
    | error e =>
      simp only [applyOp, hres]
      exact hs
    | ok p =>
      obtain ⟨s', ev⟩ := p
      obtain ⟨b, hfind, hc, hr, hkey, hsec, hcaller, rfl, rfl⟩ := claim_ok_chars hres
      simp only [applyOp, hres]
      intro k a hka
      rw [findVal_putVal] at hka
      by_cases hk : k = hl
      · rw [if_pos hk] at hka
        cases hka
        exact ⟨by simpa [hk] using hkey, by simp [hr]⟩
      · rw [if_neg hk] at hka
        exact hs k a hka
  | refund hl caller now =>
    cases hres : refund s hl caller now with
    | error e =>
      simp only [applyOp, hres]
      exact hs
    | ok p =>
      obtain ⟨s', ev⟩ := p
      obtain ⟨b, hfind, hc, hr, hkey, htime, hcaller, rfl, rfl⟩ := refund_ok_chars hres
      simp only [applyOp, hres]
      intro k a hka
      rw [findVal_putVal] at hka
      by_cases hk : k = hl
      · rw [if_pos hk] at hka
        cases hka
        exact ⟨by simpa [hk] using hkey, by simp [hc]⟩
      · rw [if_neg hk] at hka
        exact hs k a hka

theorem chainInv_runOps (hash160 : List Nat → List Nat) {s : ChainState}
    (hs : ChainInv s) (ops : List HTLCOp) : ChainInv (runOps hash160 s ops) := by
  induction ops generalizing s with
  | nil => exact hs
  | cons op rest ih => exact ih (chainInv_applyOp hash160 hs op)

theorem chainInv_initChain (balances : List (String × Nat)) :
    ChainInv (initChain balances) := by
  intro k a hka
  simp [initChain, findVal] at hka

theorem flagSet_applyOp (hash160 : List Nat → List Nat) {k : List Nat}
    {s : ChainState} (hf : FlagSet k s) (op : HTLCOp) :
    FlagSet k (applyOp hash160 s op) := by
  obtain ⟨a, hfind, hflag⟩ := hf
  cases op with
  | lock hl sender receiver amount timeout now =>
    cases hres : lock s hl sender receiver amount timeout now with
    | error e =>
      simp only [applyOp, hres]
      exact ⟨a, hfind, hflag⟩
    | ok p =>
      obtain ⟨s', ev⟩ := p
      obtain ⟨hnone, h1, h2, rfl, rfl⟩ := lock_ok_chars hres
      simp only [applyOp, hres]
      have hk : k ≠ hl := by
        intro h
        rw [h, hnone] at hfind
        cases hfind
      exact ⟨a, by rw [findVal_putVal, if_neg hk]; exact hfind, hflag⟩
  | claim hl secret caller =>
    cases hres : claim hash160 s hl secret caller with
    | error e =>
      simp only [applyOp, hres]
      exact ⟨a, hfind, hflag⟩
    | ok p =>
      obtain ⟨s', ev⟩ := p
      obtain ⟨b, hfindb, hc, hr, hkey, hsec, hcaller, rfl, rfl⟩ := claim_ok_chars hres
      simp only [applyOp, hres]
      have hk : k ≠ hl := by
        intro h
        rw [h, hfindb] at hfind
        cases hfind
        rcases hflag with h' | h'
        · rw [hc] at h'; cases h'
        · rw [hr] at h'; cases h'
      exact ⟨a, by rw [findVal_putVal, if_neg hk]; exact hfind, hflag⟩
  | refund hl caller now =>
    cases hres : refund s hl caller now with
    | error e =>
      simp only [applyOp, hres]
      exact ⟨a, hfind, hflag⟩
    | ok p =>
      obtain ⟨s', ev⟩ := p
      obtain ⟨b, hfindb, hc, hr, hkey, htime, hcaller, rfl, rfl⟩ := refund_ok_chars hres
      simp only [applyOp, hres]
      have hk : k ≠ hl := by
        intro h
        rw [h, hfindb] at hfind
        cases hfind
        rcases hflag with h' | h'
        · rw [hc] at h'; cases h'
        · rw [hr] at h'; cases h'
      exact ⟨a, by rw [findVal_putVal, if_neg hk]; exact hfind, hflag⟩

theorem flagSet_runOps (hash160 : List Nat → List Nat) {k : List Nat}
    {s : ChainState} (hf : FlagSet k s) (ops : List HTLCOp) :
    FlagSet k (runOps hash160 s ops) := by
  induction ops generalizing s with
  | nil => exact hf
  | cons op rest ih => exact ih (flagSet_applyOp hash160 hf op)

theorem claim_fails_of_flag (hash160 : List Nat → List Nat) {s : ChainState}
    {k : List Nat} {a : HTLCAccount} (hfind : findVal k s.accounts = some a)
    (hflag : a.claimed = true ∨ a.refunded = true) (secret : List Nat)
    (caller : String) :
    ∃ e, claim hash160 s k secret caller = .error e ∧
      (e = .htlc .AlreadyClaimed ∨ e = .htlc .AlreadyRefunded) := by
  unfold claim
  rw [hfind]
  cases hc : a.claimed with
  | true => exact ⟨_, by simp [hc], Or.inl rfl⟩
  | false =>
    rcases hflag with h | h
    · rw [hc] at h
      cases h
    · exact ⟨_, by simp [hc, h], Or.inr rfl⟩

theorem refund_fails_of_flag {s : ChainState} {k : List Nat} {a : HTLCAccount}
    (hfind : findVal k s.accounts = some a)
    (hflag : a.claimed = true ∨ a.refunded = true) (caller : String) (now : Int) :
    ∃ e, refund s k caller now = .error e ∧
      (e = .htlc .AlreadyClaimed ∨ e = .htlc .AlreadyRefunded) := by
  unfold refund
  rw [hfind]
  cases hc : a.claimed with
  | true => exact ⟨_, by simp [hc], Or.inl rfl⟩
  | false =>
    rcases hflag with h | h
    · rw [hc] at h
      cases h
    · exact ⟨_, by simp [hc, h], Or.inr rfl⟩

theorem runOps_append (hash160 : List Nat → List Nat) (s : ChainState)
    (ops more : List HTLCOp) :
    runOps hash160 s (ops ++ more) = runOps hash160 (runOps hash160 s ops) more := by
  simp [runOps, List.foldl_append]

/-- C2.  A `claim` call on an existing escrow succeeds exactly when the
submitted secret hashes (under HASH160) to the account's `hash_lock`, the
caller is the designated receiver, and neither terminal flag is set; on
success it marks the escrow claimed and credits the receiver with exactly
the locked amount. -/
theorem claim_success_characterization (hash160 : List Nat → List Nat)
    (s : ChainState) (k secret : List Nat) (caller : String) (a : HTLCAccount)
    (hfind : findVal k s.accounts = some a) (hkey : a.hash_lock = k) :
    ((claim hash160 s k secret caller).isOk = true ↔
      (hash160 secret = a.hash_lock ∧ caller = a.receiver ∧
       a.claimed = false ∧ a.refunded = false)) ∧
    (∀ s' ev, claim hash160 s k secret caller = .ok (s', ev) →
      findVal k s'.accounts =
        some { a with claimed := true, lamports := a.lamports - a.amount } ∧
      getBal s'.balances a.receiver = getBal s.balances a.receiver + a.amount ∧
      ev = .Claimed k a.receiver secret a.amount) := by
  constructor
  · constructor
    · intro hok
      cases hres : claim hash160 s k secret caller with
      | error e => rw [hres] at hok; cases hok
      | ok p =>
        obtain ⟨s', ev⟩ := p
        obtain ⟨b, hfindb, hc, hr, hbkey, hsec, hcaller, _, _⟩ := claim_ok_chars hres
        rw [hfind] at hfindb
        cases hfindb
        exact ⟨by rw [hsec, hkey], hcaller, hc, hr⟩
    · rintro ⟨hsec, hcaller, hc, hr⟩
      have hsec' : hash160 secret = k := by rw [hsec, hkey]
      simp [claim, hfind, hc, hr, hkey, hsec', hcaller, Except.isOk, Except.toBool]
  · intro s' ev hres
    obtain ⟨b, hfindb, hc, hr, hbkey, hsec, hcaller, rfl, rfl⟩ := claim_ok_chars hres
    rw [hfind] at hfindb
    cases hfindb
    refine ⟨findVal_putVal_self _ _ _, ?_, by rw [hcaller]⟩
    rw [← hcaller]
    exact getBal_putVal_self _ _ _

/-- Witness for the claim characterization: hypotheses hold and the
equivalence evaluates on a concrete escrow. -/
theorem claim_success_characterization_witness :
    (findVal [3] chainW.accounts = some escrowW ∧ escrowW.hash_lock = [3]) ∧
    ((claim h160W chainW [3] [9] "bob").isOk = true ↔
      (h160W [9] = escrowW.hash_lock ∧ "bob" = escrowW.receiver ∧
       escrowW.claimed = false ∧ escrowW.refunded = false)) :=
  ⟨⟨by decide, by decide⟩,
   (claim_success_characterization h160W chainW [3] [9] "bob" escrowW
     (by decide) (by decide)).1⟩

/-- C3.  Starting from a chain with no escrows, after any sequence of
`lock`/`claim`/`refund` instructions no escrow ever has both terminal flags;
escrows are created with both flags false; and once a flag is set, every
later `claim` and `refund` on that escrow fails with `AlreadyClaimed` or
`AlreadyRefunded`. -/
theorem htlc_flags_mutually_exclusive (hash160 : List Nat → List Nat)
    (bal0 : List (String × Nat)) (ops : List HTLCOp) (k : List Nat)
    (a : HTLCAccount)
    (hfind : findVal k (runOps hash160 (initChain bal0) ops).accounts = some a) :
    ¬(a.claimed = true ∧ a.refunded = true) ∧
    (∀ s s' ev hl sender receiver amount timeout now,
      lock s hl sender receiver amount timeout now = .ok (s', ev) →
      ∃ b, findVal hl s'.accounts = some b ∧ b.claimed = false ∧ b.refunded = false) ∧
    (a.claimed = true ∨ a.refunded = true →
      ∀ more secret caller now,
        (∃ e, claim hash160 (runOps hash160 (initChain bal0) (ops ++ more)) k
            secret caller = .error e ∧
          (e = .htlc .AlreadyClaimed ∨ e = .htlc .AlreadyRefunded)) ∧
        (∃ e, refund (runOps hash160 (initChain bal0) (ops ++ more)) k
            caller now = .error e ∧
          (e = .htlc .AlreadyClaimed ∨ e = .htlc .AlreadyRefunded))) := by
  refine ⟨?_, ?_, ?_⟩
  · exact (chainInv_runOps hash160 (chainInv_initChain bal0) ops k a hfind).2
  · intro s s' ev hl sender receiver amount timeout now hres
    obtain ⟨hnone, h1, h2, rfl, rfl⟩ := lock_ok_chars hres
    exact ⟨_, findVal_putVal_self _ _ _, rfl, rfl⟩
  · intro hflag more secret caller now
    have hset : FlagSet k (runOps hash160 (initChain bal0) (ops ++ more)) := by
      rw [runOps_append]
      exact flagSet_runOps hash160 ⟨a, hfind, hflag⟩ more
    obtain ⟨b, hfindb, hflagb⟩ := hset
    exact ⟨claim_fails_of_flag hash160 hfindb hflagb secret caller,
           refund_fails_of_flag hfindb hflagb caller now⟩

/-- Witness for the flags invariant: after a concrete lock-then-claim run the
stored escrow is claimed but not refunded. -/
theorem htlc_flags_mutually_exclusive_witness :
    findVal [4] (runOps h160W4 (initChain [("alice", 10)]) opsW).accounts
      = some escrowClaimedW ∧
    ¬(escrowClaimedW.claimed = true ∧ escrowClaimedW.refunded = true) :=
  ⟨by decide,
   (htlc_flags_mutually_exclusive h160W4 [("alice", 10)] opsW [4] escrowClaimedW
     (by decide)).1⟩

/-- C7.  `generate_commitment` fails with `InsufficientBalance` exactly when
`amount < min_amount`, and otherwise returns the hash of
`amount_be_bytes ‖ salt` as commitment and the hash of
`viewing_key ‖ order_id_bytes` as nullifier (both therefore deterministic in
their inputs). -/
theorem generate_commitment_characterization (H : List Nat → List Nat)
    (amount : Nat) (salt : List Nat) (min_amount : Nat) (viewing_key : List Nat)
    (order_id : String) (now : Nat) :
    (generate_commitment H amount salt min_amount viewing_key order_id now
        = .error (.InsufficientBalance min_amount amount) ↔ amount < min_amount) ∧
    (¬ amount < min_amount →
      generate_commitment H amount salt min_amount viewing_key order_id now
        = .ok { commitment_hash := H (u64BeBytes amount ++ salt)
                nullifier := H (viewing_key ++ strBytes order_id)
                min_amount := min_amount
                timestamp := now }) := by
  constructor
  · constructor
    · intro h
      by_contra hlt
      simp [generate_commitment, hlt] at h
    · intro h
      simp [generate_commitment, h]
  · intro h
    simp [generate_commitment, compute_commitment_hash, generate_nullifier, h]

/-- Witness for the commitment characterization: at `amount = 5`,
`min_amount = 3` the helper succeeds with the two specified hashes. -/
theorem generate_commitment_characterization_witness :
    ¬ (5 : Nat) < 3 ∧
    generate_commitment hashLenW 5 [1] 3 [2] "o" 7
      = .ok { commitment_hash := hashLenW (u64BeBytes 5 ++ [1])
              nullifier := hashLenW ([2] ++ strBytes "o")
              min_amount := 3
              timestamp := 7 } :=
  ⟨by decide,
   (generate_commitment_characterization hashLenW 5 [1] 3 [2] "o" 7).2 (by decide)⟩

/-- C4 counterexample.  On a session already in the terminal `TermsAgreed`
state, `cancel_negotiation` does not fail with `InvalidStateTransition`: it
succeeds and overwrites the terminal state with `Cancelled`. -/
theorem cancel_after_finalize_succeeds :
    finalizedSessionW.state.is_terminal = true ∧
    cancel_negotiation engineW orderW "late"
      = .ok { active_sessions :=
                [(orderW, { finalizedSessionW with state := .Cancelled "late" })] } :=
  ⟨rfl, rfl⟩

/-- C4 amended.  `cancel_negotiation` fails only with `SessionNotFound`;
whenever the session exists — terminal or not — it succeeds and overwrites
the state with `Cancelled reason`, leaving the other session fields
unchanged. -/
theorem cancel_negotiation_characterization (eng : NegotiationEngine)
    (order_id : OrderID) (reason : String) :
    (findVal order_id eng.active_sessions = none →
      cancel_negotiation eng order_id reason
        = .error (.SessionNotFound order_id.val)) ∧
    (∀ s, findVal order_id eng.active_sessions = some s →
      cancel_negotiation eng order_id reason
        = .ok { active_sessions :=
                  putVal order_id { s with state := .Cancelled reason }
                    eng.active_sessions }) := by
  constructor
  · intro h
    simp [cancel_negotiation, h]
  · intro s h
    simp [cancel_negotiation, h, NegotiationSession.cancel]

/-- Witness for the amended cancel characterization, evaluated on the
finalized session: the hypothesis holds and cancel succeeds. -/
theorem cancel_negotiation_characterization_witness :
    findVal orderW engineW.active_sessions = some finalizedSessionW ∧
    cancel_negotiation engineW orderW "late"
      = .ok { active_sessions :=
                putVal orderW { finalizedSessionW with state := .Cancelled "late" }
                  engineW.active_sessions } :=
  ⟨by decide,
   (cancel_negotiation_characterization engineW orderW "late").2
     finalizedSessionW (by decide)⟩

/-- C5 counterexample.  `finalize` succeeds on a session whose proposal
list is empty (both signatures present, session not terminal): the source
performs no emptiness check on the proposals. -/
theorem finalize_with_no_proposals_succeeds :
    freshSessionW.proposals = [] ∧
    NegotiationSession.finalize freshSessionW signedW
      = .ok { freshSessionW with state := .TermsAgreed signedW } :=
  ⟨rfl, rfl⟩

/-- C5 amended.  `finalize` fails exactly when the session is terminal
(`InvalidStateTransition`) or either signature is empty (`InvalidProposal`);
the proposal list is not consulted, and otherwise the session moves to
`TermsAgreed` with the signed settlement. -/
theorem finalize_characterization (s : NegotiationSession)
    (settlement : SignedSettlement) :
    (s.state.is_terminal = true →
      s.finalize settlement
        = .error (.InvalidStateTransition "Negotiation already finalized")) ∧
    (s.state.is_terminal = false →
      (settlement.maker_signature = [] ∨ settlement.taker_signature = []) →
      s.finalize settlement = .error (.InvalidProposal "Missing signatures")) ∧
    (s.state.is_terminal = false → settlement.maker_signature ≠ [] →
      settlement.taker_signature ≠ [] →
      s.finalize settlement = .ok { s with state := .TermsAgreed settlement }) := by
  refine ⟨?_, ?_, ?_⟩
  · intro h
    simp [NegotiationSession.finalize, h]
  · intro h hsig
    rcases hsig with h' | h' <;>
      simp [NegotiationSession.finalize, h, h', List.isEmpty_iff]
  · intro h h1 h2
    simp [NegotiationSession.finalize, h, List.isEmpty_iff, h1, h2]

/-- Witness for the finalize characterization: on a non-terminal session
with both signatures present, finalization succeeds. -/
theorem finalize_characterization_witness :
    freshSessionW.state.is_terminal = false ∧
    signedW.maker_signature ≠ [] ∧ signedW.taker_signature ≠ [] ∧
    NegotiationSession.finalize freshSessionW signedW
      = .ok { freshSessionW with state := .TermsAgreed signedW } :=
  ⟨by decide, by decide, by decide,
   (finalize_characterization freshSessionW signedW).2.2 (by decide)
     (by decide) (by decide)⟩

/-- C8.  Requesting details for an order id absent from the order store
fails with `OrderNotFound` and returns the engine unchanged: no session is
created. -/
theorem request_details_unknown_order
    (orders : List (OrderID × OrderAnnouncement)) (peers : List String)
    (eng : NegotiationEngine) (order_id : OrderID) (now : Nat)
    (h : findVal order_id orders = none) :
    app_request_order_details orders peers eng order_id now
      = (eng, .error (.OrderNotFound order_id.val)) := by
  simp [app_request_order_details, h]

/-- Witness: requesting details against an empty order store fails with
`OrderNotFound` and leaves the empty engine empty. -/
theorem request_details_unknown_order_witness :
    findVal orderW ([] : List (OrderID × OrderAnnouncement)) = none ∧
    app_request_order_details [] ["peer_a"] emptyEngineW orderW 0
      = (emptyEngineW, .error (.OrderNotFound orderW.val)) :=
  ⟨by decide,
   request_details_unknown_order [] ["peer_a"] emptyEngineW orderW 0 (by decide)⟩

/-- C1.  Against the claim: when the stablecoin lock event arrives first,
the coordinator publishes the `secret_reveal` immediately — while the
native-lock flag is still false — and processing the native lock afterwards
publishes nothing further.  The reveal is keyed to the `bob_lock_usdc`
branch alone, not to the conjunction of the two flags. -/
theorem reveal_published_without_native_lock :
    countReveals (coordRun h160Z []
        [.request reqZ secretZ 0, .status updBobZ 1]).2 = 1 ∧
    (findVal "p1" (coordRun h160Z []
        [.request reqZ secretZ 0, .status updBobZ 1]).1).map
      SettlementState.zec_locked = some false ∧
    countReveals (coordRun h160Z []
        [.request reqZ secretZ 0, .status updBobZ 1, .status updAliceZ 2]).2 = 1 := by
  decide

/-- C6 counterexample.  Re-delivering the stablecoin-lock event after the
reveal is not a no-op: each delivery of `bob_lock_usdc` publishes another
`secret_reveal`, so two deliveries publish two reveals for one proposal. -/
theorem redelivered_stable_lock_republishes_reveal :
    countReveals (coordRun h160Z []
        [.request reqZ secretZ 0, .status updBobZ 1, .status updBobZ 2]).2 = 2 := by
  decide

/-- C6 amended.  For a known proposal: an `alice_lock_zec` delivery never
publishes and only rewrites `zec_locked`/`status`/`updated_at` (so a
re-delivery with the flag already set changes at most `status` and
`updated_at`); a `bob_lock_usdc` delivery always publishes exactly one
`secret_reveal`, even when `usdc_locked` is already set or the reveal was
already published. -/
theorem lock_event_redelivery_characterization (svc : CoordSettlements)
    (upd : SettlementStatusUpdate) (now : Nat) (st : SettlementState)
    (hfind : findVal upd.proposal_id svc = some st) :
    (upd.action = "alice_lock_zec" →
      (handle_status_update svc upd now).2 = [] ∧
      (handle_status_update svc upd now).1
        = putVal upd.proposal_id
            { st with zec_locked := true, status := "alice_locked"
                      updated_at := now } svc) ∧
    (upd.action = "bob_lock_usdc" →
      (handle_status_update svc upd now).2
        = [reveal_secret_for_claiming
            { st with usdc_locked := true, status := "both_locked"
                      updated_at := now }] ∧
      (handle_status_update svc upd now).1
        = putVal upd.proposal_id
            { st with usdc_locked := true, status := "both_locked"
                      updated_at := now } svc) := by
  constructor
  · intro ha
    simp [handle_status_update, hfind, ha]
  · intro hb
    simp [handle_status_update, hfind, hb]

/-- Witness for the re-delivery characterization: on an entry already in
`both_locked`, a re-delivered `bob_lock_usdc` publishes another reveal. -/
theorem lock_event_redelivery_characterization_witness :
    findVal updBobZ.proposal_id svcZ = some stBothZ ∧
    (handle_status_update svcZ updBobZ 2).2
      = [reveal_secret_for_claiming
          { stBothZ with usdc_locked := true, status := "both_locked"
                         updated_at := 2 }] ∧
    (handle_status_update svcZ updBobZ 2).1
      = putVal updBobZ.proposal_id
          { stBothZ with usdc_locked := true, status := "both_locked"
                         updated_at := 2 } svcZ :=
  ⟨by decide,
   (lock_event_redelivery_characterization svcZ updBobZ 2 stBothZ (by decide)).2 rfl⟩

/-- C10.  `handle_settlement_request` stores `amount * price` with the
unchecked `u64` product — wrapping modulo `2 ^ 64` — and still creates the
settlement entry and publishes the HTLC parameters; whenever the
mathematical product is at least `2 ^ 64` the stored amount differs from
it. -/
theorem settlement_request_wrapping (hash160 : List Nat → List Nat)
    (svc : CoordSettlements) (req : SettlementRequest) (secret : List Nat)
    (now : Nat) :
    findVal req.proposal_id (handle_settlement_request hash160 svc req secret now).1
      = some { proposal_id := req.proposal_id, order_id := req.order_id
               maker_id := req.maker_id, taker_id := req.taker_id
               amount_zec := req.amount
               amount_usdc := req.amount * req.price % u64Mod
               secret := secret, hash_hex := hexEncode (hash160 secret)
               status := "ready", zec_locked := false, usdc_locked := false
               created_at := now, updated_at := now } ∧
    (handle_settlement_request hash160 svc req secret now).2
      = [publish_htlc_params req.proposal_id (hexEncode (hash160 secret))] ∧
    (req.amount * req.price ≥ u64Mod →
      req.amount * req.price % u64Mod ≠ req.amount * req.price) := by
  refine ⟨?_, ?_, ?_⟩
  · simp [handle_settlement_request, findVal_putVal_self]
  · simp [handle_settlement_request]
  · intro h
    have hlt : req.amount * req.price % u64Mod < u64Mod :=
      Nat.mod_lt _ (by norm_num [u64Mod])
    omega

/-- Witness for the wrapping behavior: at `amount = price = 2 ^ 32` the
stored stablecoin amount is 0, not the mathematical product. -/
theorem settlement_request_wrapping_witness :
    reqBigZ.amount * reqBigZ.price ≥ u64Mod ∧
    reqBigZ.amount * reqBigZ.price % u64Mod ≠ reqBigZ.amount * reqBigZ.price ∧
    (findVal "pB" (handle_settlement_request h160Z [] reqBigZ secretZ 0).1).map
      SettlementState.amount_usdc = some 0 :=
  ⟨by decide,
   (settlement_request_wrapping h160Z [] reqBigZ secretZ 0).2.2 (by decide),
   by decide⟩

theorem decDigitVal_digitChar : ∀ d, d < 10 → decDigitVal (Nat.digitChar d) = d := by
  decide

theorem toDigitsCore_append (b : Nat) :
    ∀ (fuel n : Nat) (ds : List Char),
      Nat.toDigitsCore b fuel n ds = Nat.toDigitsCore b fuel n [] ++ ds := by
  intro fuel
  induction fuel with
  | zero => intro n ds; simp [Nat.toDigitsCore]
  | succ fuel ih =>
    intro n ds
    simp only [Nat.toDigitsCore]
    by_cases h : n / b = 0
    · simp [h]
    · simp only [h, if_false]
      rw [ih (n / b) (Nat.digitChar (n % b) :: ds), ih (n / b) [Nat.digitChar (n % b)]]
      simp

theorem evalDecDigits_append (cs : List Char) (c : Char) :
    evalDecDigits (cs ++ [c]) = 10 * evalDecDigits cs + decDigitVal c := by
  simp [evalDecDigits, List.foldl_append]

theorem evalDec_toDigitsCore :
    ∀ (fuel n : Nat), n < fuel → evalDecDigits (Nat.toDigitsCore 10 fuel n []) = n := by
  intro fuel
  induction fuel with
  | zero => intro n h; omega
  | succ fuel ih =>
    intro n h
    simp only [Nat.toDigitsCore]
    by_cases h0 : n / 10 = 0
    · have hn10 : n < 10 := by omega
      simp only [h0, if_true]
      have hone : evalDecDigits [Nat.digitChar (n % 10)]
          = decDigitVal (Nat.digitChar (n % 10)) := by
        simp [evalDecDigits]
      rw [hone, decDigitVal_digitChar (n % 10) (Nat.mod_lt _ (by norm_num))]
      omega
    · simp only [h0, if_false]
      rw [toDigitsCore_append 10 fuel (n / 10) [Nat.digitChar (n % 10)]]
      rw [evalDecDigits_append]
      rw [ih (n / 10) (by omega)]
      rw [decDigitVal_digitChar (n % 10) (Nat.mod_lt _ (by norm_num))]
      omega

/-- The decimal rendering used by `format!` is injective. -/
theorem nat_repr_injective {m n : Nat} (h : Nat.repr m = Nat.repr n) : m = n := by
  unfold Nat.repr at h
  have hdata : Nat.toDigits 10 m = Nat.toDigits 10 n := by
    have := congrArg String.data h
    simpa [List.asString] using this
  unfold Nat.toDigits at hdata
  have hm := evalDec_toDigitsCore (m + 1) m (by omega)
  have hn := evalDec_toDigitsCore (n + 1) n (by omega)
  rw [hdata] at hm
  rw [hn] at hm
  exact hm.symm

theorem string_append_data (a b : String) : (a ++ b).data = a.data ++ b.data := by
  cases a
  cases b
  rfl

/-- C9 counterexample.  Two `OrderID::generate` invocations that read the
same wall-clock millisecond return the same identifier: the generated ID is
exactly `order_<millis>` and carries no random suffix, so generation is not
collision-resistant within one millisecond. -/
theorem same_millisecond_orderids_collide :
    OrderID.generate 1760227200000 = OrderID.generate 1760227200000 ∧
    OrderID.generate 1760227200000 = ⟨"order_1760227200000"⟩ := by
  exact ⟨rfl, by decide⟩

/-- C9 amended.  `OrderID::generate` is a function of the millisecond
timestamp alone: two generated IDs are equal exactly when the clock
readings are equal — distinct across distinct milliseconds, but colliding
whenever two invocations share a millisecond. -/
theorem orderid_generate_eq_iff (t₁ t₂ : Nat) :
    OrderID.generate t₁ = OrderID.generate t₂ ↔ t₁ = t₂ := by
  constructor
  · intro h
    have h1 : "order_" ++ Nat.repr t₁ = "order_" ++ Nat.repr t₂ :=
      congrArg OrderID.val h
    have h2 : "order_".data ++ (Nat.repr t₁).data
        = "order_".data ++ (Nat.repr t₂).data := by
      have := congrArg String.data h1
      rwa [string_append_data, string_append_data] at this
    have h3 : (Nat.repr t₁).data = (Nat.repr t₂).data :=
      List.append_cancel_left h2
    exact nat_repr_injective (String.ext h3)
  · intro h
    rw [h]

/-- Witness for the amended claim: clock readings one millisecond apart
give distinct order IDs. -/
theorem orderid_generate_eq_iff_witness :
    ¬ OrderID.generate 1760227200000 = OrderID.generate 1760227200001 :=
  fun h => absurd ((orderid_generate_eq_iff 1760227200000 1760227200001).mp h)
    (by decide)

end BlackTrace
